import Mathlib

/-!
Shallow embedding of the WebRTC call-session core of SafeTalk 2.0
(`src/static/js/webrtc.js`, class `WebRTCCallManager`), together with a
minimal model of the host-platform collaborators the code drives:
`RTCPeerConnection` (W3C signaling-state semantics the code relies on),
`WebSocket` readiness, and local `MediaStreamTrack`s.  Mutable fields of
the JS object become fields of a `Manager` record; each method becomes a
function from `Manager` to `Manager` together with the list of observable
side effects (callback notifications, socket sends, resource teardown,
console logging) it performs, and, where the JS method can reject or
throw to its caller, an `Option JsError`.
-/

/-- Kind of a media track (audio or video). -/
inductive MediaKind
  | audio
  | video
deriving DecidableEq, Repr

/-- A local `MediaStreamTrack`: its kind, its `enabled` flag (flipped by the
mute / camera-off toggles) and whether `stop()` has been called on it. -/
structure Track where
  kind : MediaKind
  enabled : Bool
  stopped : Bool
deriving DecidableEq, Repr

/-- An SDP session description, as built by `RTCSessionDescription`:
a `type` ("offer" or "answer") and the SDP text. -/
structure SessionDescription where
  type : String
  sdp : String
deriving DecidableEq, Repr

/-- An ICE candidate descriptor (`candidate` string, `sdpMid`,
`sdpMLineIndex`), the payload unit of ICE signaling. -/
structure CandDesc where
  candidate : String
  sdpMid : Option String
  sdpMLineIndex : Option Nat
deriving DecidableEq, Repr

/-- The JSON values that occur as signaling-message payloads in
`webrtc.js`: an offer/answer description object, a bare candidate
descriptor, the `\x7b candidate: ... \x7d` wrapper object built by the
`onicecandidate` handler, the empty object (hangup payload), JSON null,
and strings. -/
inductive SigPayload
  | desc (d : SessionDescription)
  | cand (c : CandDesc)
  | wrap (c : CandDesc)
  | emptyObj
  | nullv
  | str (s : String)
deriving DecidableEq, Repr

/-- JavaScript truthiness of a possibly-absent payload value:
`none` models `undefined`; `null` and the empty string are falsy;
every object (including the empty object) and non-empty string is truthy. -/
def jsTruthy : Option SigPayload → Bool
  | none => false
  | some SigPayload.nullv => false
  | some (SigPayload.str s) => s ≠ ""
  | some _ => true

/-- A signaling wire message as produced by
`JSON.stringify(\x7b type: type, [type]: data \x7d)` and consumed by
`handleSignalingMessage`.  Each field models JS property access on the
parsed object: `none` is `undefined`.  Only the properties some code
reads or writes are represented: `type`, the four type-named payload
slots, and `candidate` — the property `handleSignalingMessage` actually
reads for ICE messages. -/
structure WireMessage where
  type : String
  offer : Option SigPayload
  answer : Option SigPayload
  ice_candidate : Option SigPayload
  candidate : Option SigPayload
  hangup : Option SigPayload
deriving DecidableEq, Repr

/-- `sendSignalingMessage`'s object literal `\x7b type: type, [type]: data \x7d`:
the payload lands under the property named by `type` itself; every other
property is absent. -/
def buildMessage (t : String) (d : SigPayload) : WireMessage :=
  { type := t
    offer := if t = "offer" then some d else none
    answer := if t = "answer" then some d else none
    ice_candidate := if t = "ice_candidate" then some d else none
    candidate := if t = "candidate" then some d else none
    hangup := if t = "hangup" then some d else none }

/-- `RTCPeerConnection.connectionState` values. -/
inductive ConnState
  | new
  | connecting
  | connected
  | disconnected
  | failed
  | closed
deriving DecidableEq, Repr

/-- `RTCPeerConnection.signalingState` values used by offer/answer
negotiation. -/
inductive SignalingState
  | stable
  | haveLocalOffer
  | haveRemoteOffer
deriving DecidableEq, Repr

/-- Host-platform collaborator: the slice of `RTCPeerConnection` state the
call manager observes and mutates (W3C semantics). `senders` records the
tracks attached with `addTrack`. -/
structure RTCPeerConnection where
  signalingState : SignalingState
  localDescription : Option SessionDescription
  remoteDescription : Option SessionDescription
  connectionState : ConnState
  remoteCandidates : List CandDesc
  senders : List Track
  closed : Bool
deriving DecidableEq, Repr

/-- `WebSocket.readyState` values. -/
inductive WsReady
  | connecting
  | opened
  | closing
  | closed
deriving DecidableEq, Repr

/-- Host-platform collaborator: the signaling `WebSocket`, of which the
manager only inspects `readyState`. -/
structure WebSocketModel where
  readyState : WsReady
deriving DecidableEq, Repr

/-- A JavaScript error propagating out of a method, identified by its
platform error name or message. -/
abbrev JsError := String

/-- The mutable fields of a `WebRTCCallManager` instance, plus one flag per
optional callback slot recording whether the UI has installed it
(`onCallStateChange`, `onLocalStream`, `onRemoteStream`). -/
structure Manager where
  peerConnection : Option RTCPeerConnection
  localStream : Option (List Track)
  remoteStream : Option (List Track)
  signalingSocket : Option WebSocketModel
  callSessionId : Option String
  isInitiator : Bool
  callType : String
  hasStateCallback : Bool
  hasLocalCallback : Bool
  hasRemoteCallback : Bool
deriving DecidableEq, Repr

/-- The observable side effects a method performs, in program order:
a call-state value delivered to `onCallStateChange`, a socket `send`, a
socket `close`, a peer-connection `close`, a `stop()` on the local track
at a given index, the local/remote stream callbacks, and a
`console.error` log entry. -/
inductive Effect
  | stateChange (s : String)
  | wsSend (msg : WireMessage)
  | wsClose
  | pcClose
  | trackStop (i : Nat)
  | localStreamReady
  | remoteStreamUpdated
  | log (e : JsError)
deriving DecidableEq, Repr

/-- `updateCallState(state)`: invokes `onCallStateChange(state)` when the
UI installed that callback. -/
def updateCallState (m : Manager) (s : String) : List Effect :=
  if m.hasStateCallback then [Effect.stateChange s] else []

/-- `sendSignalingMessage(type, data)`: sends the JSON message only when a
socket exists and its `readyState` is `OPEN`; otherwise the message is
silently dropped (no buffering, no error). -/
def sendSignalingMessage (m : Manager) (t : String) (d : SigPayload) :
    List Effect :=
  match m.signalingSocket with
  | some sock =>
      if sock.readyState = WsReady.opened then [Effect.wsSend (buildMessage t d)]
      else []
  | none => []

/-- `endCall()`: sends a hangup signal, closes and nulls the peer
connection, stops and nulls every local track, closes and nulls the
signaling socket — each step guarded by a null check — and finally
reports the `ended` state unconditionally. -/
def endCall (m : Manager) : Manager × List Effect :=
  let sendFx := sendSignalingMessage m "hangup" SigPayload.emptyObj
  let pcFx := match m.peerConnection with
    | some _ => [Effect.pcClose]
    | none => []
  let trackFx := match m.localStream with
    | some ts => (List.range ts.length).map Effect.trackStop
    | none => []
  let wsFx := match m.signalingSocket with
    | some _ => [Effect.wsClose]
    | none => []
  let m' := { m with peerConnection := none, localStream := none,
                     signalingSocket := none }
  (m', sendFx ++ pcFx ++ trackFx ++ wsFx ++ updateCallState m "ended")

/-- In-place flip of the `enabled` flag of the first track of the given
kind, as `stream.getAudioTracks()[0].enabled = !enabled` does on the
shared track object. -/
def flipFirst (k : MediaKind) : List Track → List Track
  | [] => []
  | t :: ts =>
      if t.kind = k then { t with enabled := !t.enabled } :: ts
      else t :: flipFirst k ts

/-- First track of the given kind, as `getAudioTracks()[0]` /
`getVideoTracks()[0]` select it. -/
def firstTrack (k : MediaKind) (ts : List Track) : Option Track :=
  ts.find? (fun t => t.kind = k)

/-- `toggleAudio()`: if a local stream with an audio track exists, flip the
track's `enabled` flag and return the new value; otherwise return false
and change nothing. -/
def toggleAudio (m : Manager) : Manager × Bool :=
  match m.localStream with
  | some ts =>
      match firstTrack MediaKind.audio ts with
      | some t =>
          ({ m with localStream := some (flipFirst MediaKind.audio ts) },
           !t.enabled)
      | none => (m, false)
  | none => (m, false)

/-- `toggleVideo()`: same as `toggleAudio` for the first video track. -/
def toggleVideo (m : Manager) : Manager × Bool :=
  match m.localStream with
  | some ts =>
      match firstTrack MediaKind.video ts with
      | some t =>
          ({ m with localStream := some (flipFirst MediaKind.video ts) },
           !t.enabled)
      | none => (m, false)
  | none => (m, false)

/-- The call-state values `deliveredStates` extracts from an effect list:
exactly those handed to the `onCallStateChange` subscriber, in order. -/
def deliveredStates (fx : List Effect) : List String :=
  fx.filterMap (fun e => match e with
    | Effect.stateChange s => some s
    | _ => none)

/-- W3C `setLocalDescription`: an offer is accepted in the stable state,
an answer after a remote offer; anything else (or a closed connection)
rejects with `InvalidStateError`. -/
def setLocalDescription (pc : RTCPeerConnection) (d : SessionDescription) :
    Except JsError RTCPeerConnection :=
  if pc.closed then Except.error "InvalidStateError"
  else if d.type = "offer" ∧ pc.signalingState = SignalingState.stable then
    Except.ok { pc with signalingState := SignalingState.haveLocalOffer,
                        localDescription := some d }
  else if d.type = "answer" ∧ pc.signalingState = SignalingState.haveRemoteOffer
  then
    Except.ok { pc with signalingState := SignalingState.stable,
                        localDescription := some d }
  else Except.error "InvalidStateError"

/-- W3C `setRemoteDescription`: a remote offer is accepted in the stable
state, a remote answer after a local offer; anything else rejects with
`InvalidStateError`. -/
def setRemoteDescription (pc : RTCPeerConnection) (d : SessionDescription) :
    Except JsError RTCPeerConnection :=
  if pc.closed then Except.error "InvalidStateError"
  else if d.type = "offer" ∧ pc.signalingState = SignalingState.stable then
    Except.ok { pc with signalingState := SignalingState.haveRemoteOffer,
                        remoteDescription := some d }
  else if d.type = "answer" ∧ pc.signalingState = SignalingState.haveLocalOffer
  then
    Except.ok { pc with signalingState := SignalingState.stable,
                        remoteDescription := some d }
  else Except.error "InvalidStateError"

/-- W3C `createOffer`: produces an offer description unless the connection
is closed. -/
def createOfferPc (pc : RTCPeerConnection) :
    Except JsError SessionDescription :=
  if pc.closed then Except.error "InvalidStateError"
  else Except.ok { type := "offer", sdp := "sdp-offer" }

/-- W3C `createAnswer`: only valid once a remote offer has been applied
(`have-remote-offer`); otherwise rejects with `InvalidStateError`. -/
def createAnswerPc (pc : RTCPeerConnection) :
    Except JsError SessionDescription :=
  if pc.closed then Except.error "InvalidStateError"
  else if pc.signalingState = SignalingState.haveRemoteOffer then
    Except.ok { type := "answer", sdp := "sdp-answer" }
  else Except.error "InvalidStateError"

/-- W3C `addIceCandidate`: rejects with `InvalidStateError` when no remote
description has been applied yet (or the connection is closed); otherwise
records the candidate. -/
def addIceCandidate (pc : RTCPeerConnection) (c : CandDesc) :
    Except JsError RTCPeerConnection :=
  if pc.closed then Except.error "InvalidStateError"
  else match pc.remoteDescription with
    | none => Except.error "InvalidStateError"
    | some _ =>
        Except.ok { pc with remoteCandidates := pc.remoteCandidates ++ [c] }

/-- `new RTCIceCandidate(candidate)`: succeeds on a candidate descriptor
dictionary; any other argument raises `TypeError`. -/
def rtcIceCandidateOf : SigPayload → Except JsError CandDesc
  | SigPayload.cand c => Except.ok c
  | _ => Except.error "TypeError"

/-- `new RTCSessionDescription(init)`: succeeds on a description object;
any other argument (including `undefined`) fails to yield a usable
description, surfaced as `TypeError`. -/
def rtcSessionDescriptionOf : Option SigPayload → Except JsError SessionDescription
  | some (SigPayload.desc d) => Except.ok d
  | _ => Except.error "TypeError"

/-- `createOffer()`: asks the connection for an offer, applies it locally
and transmits it; on any rejection it logs and rethrows (reading
`this.peerConnection` when null raises `TypeError`). -/
def createOffer (m : Manager) : Manager × List Effect × Option JsError :=
  match m.peerConnection with
  | none => (m, [Effect.log "TypeError"], some "TypeError")
  | some pc =>
      match createOfferPc pc with
      | Except.error e => (m, [Effect.log e], some e)
      | Except.ok off =>
          match setLocalDescription pc off with
          | Except.error e => (m, [Effect.log e], some e)
          | Except.ok pc' =>
              let m' := { m with peerConnection := some pc' }
              (m', sendSignalingMessage m' "offer" (SigPayload.desc off), none)

/-- `createAnswer()`: asks the connection for an answer, applies it locally
and transmits it; on any rejection it logs and rethrows. -/
def createAnswer (m : Manager) : Manager × List Effect × Option JsError :=
  match m.peerConnection with
  | none => (m, [Effect.log "TypeError"], some "TypeError")
  | some pc =>
      match createAnswerPc pc with
      | Except.error e => (m, [Effect.log e], some e)
      | Except.ok ans =>
          match setLocalDescription pc ans with
          | Except.error e => (m, [Effect.log e], some e)
          | Except.ok pc' =>
              let m' := { m with peerConnection := some pc' }
              (m', sendSignalingMessage m' "answer" (SigPayload.desc ans), none)

/-- `handleOffer(offer)`: applies the remote offer and answers it; every
error along the way is caught and logged, never rethrown. -/
def handleOffer (m : Manager) (p : Option SigPayload) : Manager × List Effect :=
  match rtcSessionDescriptionOf p with
  | Except.error e => (m, [Effect.log e])
  | Except.ok d =>
      match m.peerConnection with
      | none => (m, [Effect.log "TypeError"])
      | some pc =>
          match setRemoteDescription pc d with
          | Except.error e => (m, [Effect.log e])
          | Except.ok pc' =>
              let m' := { m with peerConnection := some pc' }
              match createAnswer m' with
              | (m'', fx, some e) => (m'', fx ++ [Effect.log e])
              | (m'', fx, none) => (m'', fx)

/-- `handleAnswer(answer)`: applies the remote answer; errors are caught
and logged, never rethrown. -/
def handleAnswer (m : Manager) (p : Option SigPayload) :
    Manager × List Effect :=
  match rtcSessionDescriptionOf p with
  | Except.error e => (m, [Effect.log e])
  | Except.ok d =>
      match m.peerConnection with
      | none => (m, [Effect.log "TypeError"])
      | some pc =>
          match setRemoteDescription pc d with
          | Except.error e => (m, [Effect.log e])
          | Except.ok pc' => ({ m with peerConnection := some pc' }, [])

/-- `handleIceCandidate(candidate)`: a falsy candidate is skipped entirely;
otherwise the candidate is applied to the connection, with any error
caught and logged. -/
def handleIceCandidate (m : Manager) (p : Option SigPayload) :
    Manager × List Effect :=
  if jsTruthy p then
    match p with
    | some payload =>
        match rtcIceCandidateOf payload with
        | Except.error e => (m, [Effect.log e])
        | Except.ok c =>
            match m.peerConnection with
            | none => (m, [Effect.log "TypeError"])
            | some pc =>
                match addIceCandidate pc c with
                | Except.error e => (m, [Effect.log e])
                | Except.ok pc' => ({ m with peerConnection := some pc' }, [])
    | none => (m, [])
  else (m, [])

/-- `handleSignalingMessage(data)`: dispatches on `data.type`; note the
ICE branch reads `data.candidate`, not `data.ice_candidate`.  Unknown
types are ignored, and the surrounding try/catch means no error escapes. -/
def handleSignalingMessage (m : Manager) (msg : WireMessage) :
    Manager × List Effect :=
  if msg.type = "offer" then handleOffer m msg.offer
  else if msg.type = "answer" then handleAnswer m msg.answer
  else if msg.type = "ice_candidate" then handleIceCandidate m msg.candidate
  else if msg.type = "hangup" then endCall m
  else (m, [])

/-- The `onconnectionstatechange` handler: the platform moves
`connectionState` and the handler maps connected ↦ "connected",
disconnected and failed ↦ "disconnected", closed ↦ "ended", with no
branch for the remaining values. -/
def connectionStateHandler (m : Manager) (cs : ConnState) :
    Manager × List Effect :=
  match m.peerConnection with
  | none => (m, [])
  | some pc =>
      let m' := { m with peerConnection := some { pc with connectionState := cs } }
      let fx := match cs with
        | ConnState.connected => updateCallState m' "connected"
        | ConnState.disconnected => updateCallState m' "disconnected"
        | ConnState.failed => updateCallState m' "disconnected"
        | ConnState.closed => updateCallState m' "ended"
        | _ => []
      (m', fx)

/-- The `onicecandidate` handler: when the discovery event carries a
candidate, wrap it as `\x7b candidate: event.candidate \x7d` and send it as an
`ice_candidate` message; a null candidate (end of gathering) is ignored. -/
def onIceCandidate (m : Manager) (c : Option CandDesc) : List Effect :=
  match c with
  | some cd => sendSignalingMessage m "ice_candidate" (SigPayload.wrap cd)
  | none => []

/-- The message thrown by `getUserMedia`'s catch block. -/
def mediaErrMsg : JsError :=
  "Could not access camera/microphone. Please check permissions."

/-- A fresh `RTCPeerConnection` as `createPeerConnection` builds it, with
the local tracks attached via `addTrack`. -/
def newPeerConnection (tracks : List Track) : RTCPeerConnection :=
  { signalingState := SignalingState.stable
    localDescription := none
    remoteDescription := none
    connectionState := ConnState.new
    remoteCandidates := []
    senders := tracks
    closed := false }

/-- `initializeCall(callSessionId, callType, isInitiator)`:
records the session parameters, acquires media (the platform's grant or
denial is the `media` argument), creates the peer connection, opens the
signaling socket (initially `CONNECTING`), sends the offer when
initiator, and reports `connecting`; any failure is logged, reported as
`failed`, and rethrown to the caller. -/
def initializeCall (m : Manager) (sid : String) (ctype : String)
    (isInit : Bool) (media : Except JsError (List Track)) :
    Manager × List Effect × Option JsError :=
  let m0 := { m with callSessionId := some sid, callType := ctype,
                     isInitiator := isInit }
  match media with
  | Except.error e =>
      (m0, [Effect.log e, Effect.log mediaErrMsg] ++
        updateCallState m0 "failed", some mediaErrMsg)
  | Except.ok tracks =>
      let m1 := { m0 with localStream := some tracks }
      let localFx := if m1.hasLocalCallback then [Effect.localStreamReady] else []
      let m2 := { m1 with peerConnection := some (newPeerConnection tracks) }
      let m3 := { m2 with
        signalingSocket := some { readyState := WsReady.connecting } }
      if isInit then
        match createOffer m3 with
        | (m4, fx, some e) =>
            (m4, localFx ++ fx ++ [Effect.log e] ++ updateCallState m4 "failed",
             some e)
        | (m4, fx, none) =>
            (m4, localFx ++ fx ++ updateCallState m4 "connecting", none)
      else
        (m3, localFx ++ updateCallState m3 "connecting", none)

/-- One external stimulus to the manager: a public API call, an inbound
signaling message, or a platform callback. -/
inductive Event
  | init (sid : String) (ctype : String) (isInit : Bool)
      (media : Except JsError (List Track))
  | recv (msg : WireMessage)
  | connState (cs : ConnState)
  | iceDiscovered (c : Option CandDesc)
  | hangupClick
  | toggleAudioClick
  | toggleVideoClick

/-- Dispatch of one event to the manager method the source wires it to. -/
def step (m : Manager) (e : Event) : Manager × List Effect :=
  match e with
  | Event.init sid ctype isInit media =>
      let r := initializeCall m sid ctype isInit media
      (r.1, r.2.1)
  | Event.recv msg => handleSignalingMessage m msg
  | Event.connState cs => connectionStateHandler m cs
  | Event.iceDiscovered c => (m, onIceCandidate m c)
  | Event.hangupClick => endCall m
  | Event.toggleAudioClick => ((toggleAudio m).1, [])
  | Event.toggleVideoClick => ((toggleVideo m).1, [])

/-- Run a sequence of events, accumulating all effects in order. -/
def runEvents (m : Manager) (es : List Event) : Manager × List Effect :=
  es.foldl (fun p e => let r := step p.1 e; (r.1, p.2 ++ r.2)) (m, [])

/-- A live local audio track. -/
def tAudio : Track := { kind := MediaKind.audio, enabled := true, stopped := false }

/-- A live local video track. -/
def tVideo : Track := { kind := MediaKind.video, enabled := true, stopped := false }

/-- A manager as the constructor leaves it, with the UI's state callback
installed. -/
def freshMgr : Manager :=
  { peerConnection := none
    localStream := none
    remoteStream := none
    signalingSocket := none
    callSessionId := none
    isInitiator := false
    callType := "voice"
    hasStateCallback := true
    hasLocalCallback := false
    hasRemoteCallback := false }

/-- An initiator mid-call: media acquired, fresh peer connection, open
signaling socket, all UI callbacks installed. -/
def senderMgr : Manager :=
  { peerConnection := some (newPeerConnection [tAudio, tVideo])
    localStream := some [tAudio, tVideo]
    remoteStream := none
    signalingSocket := some { readyState := WsReady.opened }
    callSessionId := some "sess-1"
    isInitiator := true
    callType := "video"
    hasStateCallback := true
    hasLocalCallback := true
    hasRemoteCallback := true }

/-- A responder that has already applied the remote offer, so a remote ICE
candidate would be accepted by its connection. -/
def recvMgr : Manager :=
  { senderMgr with
    isInitiator := false
    peerConnection := some
      { newPeerConnection [tAudio, tVideo] with
        signalingState := SignalingState.haveRemoteOffer
        remoteDescription := some { type := "offer", sdp := "sdp-offer" } } }

/-- A concrete ICE candidate descriptor. -/
def c0 : CandDesc := { candidate := "cand-0", sdpMid := some "0", sdpMLineIndex := some 0 }

/-- The wire message the `onicecandidate` handler emits for `c0`. -/
def iceMsg : WireMessage := buildMessage "ice_candidate" (SigPayload.wrap c0)

/-- The call-state strings the manager can actually hand to
`onCallStateChange`: the literals appearing at its `updateCallState` call
sites. -/
def allowedStates : List String :=
  ["connecting", "connected", "disconnected", "ended", "failed"]

theorem sendSignalingMessage_shape (m : Manager) (t : String) (d : SigPayload) :
    sendSignalingMessage m t d = [] ∨
    sendSignalingMessage m t d = [Effect.wsSend (buildMessage t d)] := by
  unfold sendSignalingMessage
  cases m.signalingSocket with
  | none => exact Or.inl rfl
  | some s =>
      by_cases h : s.readyState = WsReady.opened
      · simp [h]
      · simp [h]

theorem count_sendFx (m : Manager) (t : String) (d : SigPayload) (e : Effect)
    (h : ∀ msg, e ≠ Effect.wsSend msg) :
    (sendSignalingMessage m t d).count e = 0 := by
  rcases sendSignalingMessage_shape m t d with h' | h' <;> rw [h']
  · rfl
  · rw [List.count_singleton']
    exact if_neg (fun heq => h _ heq.symm)

theorem mem_deliveredStates {fx : List Effect} {s : String} :
    s ∈ deliveredStates fx ↔ Effect.stateChange s ∈ fx := by
  unfold deliveredStates
  rw [List.mem_filterMap]
  constructor
  · rintro ⟨e, he, hm⟩
    cases e <;> simp_all
  · intro h
    exact ⟨Effect.stateChange s, h, rfl⟩

theorem stateChange_not_mem_sendFx (m : Manager) (t : String) (d : SigPayload)
    (s : String) : Effect.stateChange s ∉ sendSignalingMessage m t d := by
  rcases sendSignalingMessage_shape m t d with h' | h' <;> rw [h'] <;> simp

theorem stateChange_mem_update {m : Manager} {s s' : String}
    (h : Effect.stateChange s ∈ updateCallState m s') : s = s' := by
  unfold updateCallState at h
  split at h <;> simp_all

theorem stateChange_mem_endCall {m : Manager} {s : String}
    (h : Effect.stateChange s ∈ (endCall m).2) : s = "ended" := by
  unfold endCall at h
  simp only [List.mem_append] at h
  rcases h with ((((h | h) | h) | h) | h)
  · exact absurd h (stateChange_not_mem_sendFx m _ _ s)
  · split at h <;> simp_all
  · split at h <;> simp_all
  · split at h <;> simp_all
  · exact stateChange_mem_update h

theorem stateChange_not_mem_createOffer (m : Manager) (s : String) :
    Effect.stateChange s ∉ (createOffer m).2.1 := by
  unfold createOffer
  split
  · simp
  · split
    · simp
    · split
      · simp
      · exact stateChange_not_mem_sendFx _ _ _ s

theorem stateChange_not_mem_createAnswer (m : Manager) (s : String) :
    Effect.stateChange s ∉ (createAnswer m).2.1 := by
  unfold createAnswer
  split
  · simp
  · split
    · simp
    · split
      · simp
      · exact stateChange_not_mem_sendFx _ _ _ s

theorem stateChange_not_mem_createOffer' {m m'' : Manager} {fx : List Effect}
    {th : Option JsError} (heq : createOffer m = (m'', fx, th)) (s : String) :
    Effect.stateChange s ∉ fx := by
  have h := stateChange_not_mem_createOffer m s
  rw [heq] at h
  exact h

theorem stateChange_not_mem_createAnswer' {m m'' : Manager} {fx : List Effect}
    {th : Option JsError} (heq : createAnswer m = (m'', fx, th)) (s : String) :
    Effect.stateChange s ∉ fx := by
  have h := stateChange_not_mem_createAnswer m s
  rw [heq] at h
  exact h

theorem stateChange_not_mem_handleOffer (m : Manager) (p : Option SigPayload)
    (s : String) : Effect.stateChange s ∉ (handleOffer m p).2 := by
  unfold handleOffer
  split
  · simp
  · split
    · simp
    · split
      · simp
      · dsimp only
        split
        · rename_i heq
          intro hmem
          simp only [List.mem_append] at hmem
          rcases hmem with hmem | hmem
          · exact stateChange_not_mem_createAnswer' heq s hmem
          · simp_all
        · rename_i heq
          intro hmem
          exact stateChange_not_mem_createAnswer' heq s hmem

theorem stateChange_not_mem_handleAnswer (m : Manager) (p : Option SigPayload)
    (s : String) : Effect.stateChange s ∉ (handleAnswer m p).2 := by
  unfold handleAnswer
  split
  · simp
  · split
    · simp
    · split
      · simp
      · simp

theorem stateChange_not_mem_handleIceCandidate (m : Manager)
    (p : Option SigPayload) (s : String) :
    Effect.stateChange s ∉ (handleIceCandidate m p).2 := by
  unfold handleIceCandidate
  split
  · split
    · split
      · simp
      · split
        · simp
        · split
          · simp
          · simp
    · simp
  · simp

theorem stateChange_mem_handleSignalingMessage {m : Manager}
    {msg : WireMessage} {s : String}
    (h : Effect.stateChange s ∈ (handleSignalingMessage m msg).2) :
    s = "ended" := by
  unfold handleSignalingMessage at h
  split at h
  · exact absurd h (stateChange_not_mem_handleOffer m msg.offer s)
  · split at h
    · exact absurd h (stateChange_not_mem_handleAnswer m msg.answer s)
    · split at h
      · exact absurd h (stateChange_not_mem_handleIceCandidate m msg.candidate s)
      · split at h
        · exact stateChange_mem_endCall h
        · simp_all

theorem stateChange_mem_connectionStateHandler {m : Manager} {cs : ConnState}
    {s : String}
    (h : Effect.stateChange s ∈ (connectionStateHandler m cs).2) :
    s ∈ allowedStates := by
  unfold connectionStateHandler at h
  split at h
  · simp_all
  · split at h <;>
      first
        | (rw [stateChange_mem_update h]; simp [allowedStates])
        | simp_all

theorem stateChange_mem_initializeCall {m : Manager} {sid ctype : String}
    {isInit : Bool} {media : Except JsError (List Track)} {s : String}
    (h : Effect.stateChange s ∈ (initializeCall m sid ctype isInit media).2.1) :
    s ∈ allowedStates := by
  unfold initializeCall at h
  split at h
  · dsimp only at h
    simp only [List.mem_append, List.mem_cons, List.not_mem_nil] at h
    rcases h with (h | h) | h
    · simp_all
    · simp_all
    · have := stateChange_mem_update h
      subst this
      simp [allowedStates]
  · dsimp only at h
    split at h
    · split at h
      · rename_i heq
        simp only [List.mem_append] at h
        rcases h with ((h | h) | h) | h
        · split at h <;> simp_all
        · exact absurd h (stateChange_not_mem_createOffer' heq s)
        · simp_all
        · have := stateChange_mem_update h
          subst this
          simp [allowedStates]
      · rename_i heq
        simp only [List.mem_append] at h
        rcases h with (h | h) | h
        · split at h <;> simp_all
        · exact absurd h (stateChange_not_mem_createOffer' heq s)
        · have := stateChange_mem_update h
          subst this
          simp [allowedStates]
    · simp only [List.mem_append] at h
      rcases h with h | h
      · split at h <;> simp_all
      · have := stateChange_mem_update h
        subst this
        simp [allowedStates]

theorem stateChange_mem_step {m : Manager} {e : Event} {s : String}
    (h : Effect.stateChange s ∈ (step m e).2) : s ∈ allowedStates := by
  cases e with
  | init sid ctype isInit media => exact stateChange_mem_initializeCall h
  | recv msg =>
      have := stateChange_mem_handleSignalingMessage h
      subst this
      simp [allowedStates]
  | connState cs => exact stateChange_mem_connectionStateHandler h
  | iceDiscovered c =>
      simp only [step] at h
      unfold onIceCandidate at h
      cases c with
      | none => simp_all
      | some cd => exact absurd h (stateChange_not_mem_sendFx _ _ _ s)
  | hangupClick =>
      have := stateChange_mem_endCall h
      subst this
      simp [allowedStates]
  | toggleAudioClick => simp [step] at h
  | toggleVideoClick => simp [step] at h

theorem stateChange_mem_runEvents_aux (s : String) :
    ∀ (es : List Event) (m : Manager) (acc : List Effect),
      Effect.stateChange s ∈
        (es.foldl (fun p e => let r := step p.1 e; (r.1, p.2 ++ r.2)) (m, acc)).2 →
      Effect.stateChange s ∈ acc ∨ s ∈ allowedStates := by
  intro es
  induction es with
  | nil => exact fun m acc h => Or.inl h
  | cons e tl ih =>
      intro m acc h
      simp only [List.foldl_cons] at h
      rcases ih (step m e).1 (acc ++ (step m e).2) h with h' | h'
      · rw [List.mem_append] at h'
        rcases h' with h' | h'
        · exact Or.inl h'
        · exact Or.inr (stateChange_mem_step h')
      · exact Or.inr h'

/-- C3 (amended): for every manager state and every sequence of events
(signaling messages, connection-state callbacks, API calls), every value
delivered to the `onCallStateChange` subscriber lies in the set
actually emitted by the code: connecting, connected, disconnected,
ended, failed.  (The spec's claimed set {idle, connecting, ringing,
connected, ended, failed} is refuted by `delivered_disconnected_state`:
`disconnected` is delivered and is not in that set.) -/
theorem delivered_states_closed (m : Manager) (es : List Event) (s : String)
    (h : s ∈ deliveredStates (runEvents m es).2) : s ∈ allowedStates := by
  rw [mem_deliveredStates] at h
  unfold runEvents at h
  rcases stateChange_mem_runEvents_aux s es m [] h with h' | h'
  · simp at h'
  · exact h'

theorem delivered_states_closed_witness :
    "ended" ∈ deliveredStates (runEvents senderMgr [Event.hangupClick]).2 ∧
    "ended" ∈ allowedStates :=
  ⟨by decide,
   delivered_states_closed senderMgr [Event.hangupClick] "ended" (by decide)⟩

/-- C3 counterexample: a connection-state callback reporting
`disconnected` makes the manager deliver the string "disconnected" to
the subscriber, which is not one of the CallState values
{idle, connecting, ringing, connected, ended, failed} the claim
allows. -/
theorem delivered_disconnected_state :
    deliveredStates (step senderMgr (Event.connState ConnState.disconnected)).2
      = ["disconnected"] ∧
    "disconnected" ∉
      ["idle", "connecting", "ringing", "connected", "ended", "failed"] := by
  decide

/-- C2: the ICE signaling round trip is broken in the code.  The
`onicecandidate` handler sends the candidate under the `ice_candidate`
property (wrapped in a `candidate` object), exactly as the spec's wire
format says; but `handleSignalingMessage` reads `data.candidate`, which
is absent on that message, so `handleIceCandidate` receives `undefined`
and the peer's connection never receives the candidate: processing the
sent message leaves the receiving manager completely unchanged. -/
theorem ice_candidate_roundtrip_dropped :
    (step senderMgr (Event.iceDiscovered (some c0))).2 = [Effect.wsSend iceMsg] ∧
    iceMsg.type = "ice_candidate" ∧
    iceMsg.ice_candidate = some (SigPayload.wrap c0) ∧
    iceMsg.candidate = none ∧
    handleSignalingMessage recvMgr iceMsg = (recvMgr, []) ∧
    (handleSignalingMessage recvMgr iceMsg).1.peerConnection.map
        RTCPeerConnection.remoteCandidates = some [] := by
  decide

theorem count_trackStop_range (n i : Nat) (h : i < n) :
    ((List.range n).map Effect.trackStop).count (Effect.trackStop i) = 1 := by
  rw [List.count_map_of_injective _ Effect.trackStop
      (fun a b hab => by injection hab)]
  exact List.count_eq_one_of_mem (List.nodup_range n) (List.mem_range.mpr h)

theorem count_stateChange_trackFx (n : Nat) (s : String) :
    ((List.range n).map Effect.trackStop).count (Effect.stateChange s) = 0 := by
  rw [List.count_eq_zero]
  simp

theorem count_pcClose_trackFx (n : Nat) :
    ((List.range n).map Effect.trackStop).count Effect.pcClose = 0 := by
  rw [List.count_eq_zero]
  simp

/-- C1 (amended): hanging up twice — by two `endCall` invocations, the
second equivalently arriving as a remote `hangup` message — tears
resources down exactly once (the connection is closed once and each
local track is stopped once), but the `ended` state-change notification
is delivered once per invocation, i.e. twice, because
`updateCallState('ended')` runs unconditionally at the end of every
`endCall`. -/
theorem hangup_twice_single_teardown (m : Manager) (ts : List Track)
    (hpc : m.peerConnection.isSome = true)
    (hls : m.localStream = some ts)
    (hcb : m.hasStateCallback = true) :
    (((endCall m).2 ++ (endCall (endCall m).1).2).count
        (Effect.stateChange "ended") = 2) ∧
    (((endCall m).2 ++ (endCall (endCall m).1).2).count Effect.pcClose = 1) ∧
    (∀ i, i < ts.length →
      ((endCall m).2 ++ (endCall (endCall m).1).2).count (Effect.trackStop i)
        = 1) ∧
    handleSignalingMessage (endCall m).1 (buildMessage "hangup" SigPayload.emptyObj)
      = endCall (endCall m).1 := by
  obtain ⟨pc, hpc'⟩ := Option.isSome_iff_exists.mp hpc
  have hsnd : (endCall (endCall m).1).2 = [Effect.stateChange "ended"] := by
    show (endCall { m with peerConnection := none, localStream := none,
                           signalingSocket := none }).2
      = [Effect.stateChange "ended"]
    simp [endCall, sendSignalingMessage, updateCallState, hcb]
  have hfst : (endCall m).2
      = sendSignalingMessage m "hangup" SigPayload.emptyObj
        ++ [Effect.pcClose]
        ++ (List.range ts.length).map Effect.trackStop
        ++ (match m.signalingSocket with
            | some _ => [Effect.wsClose]
            | none => [])
        ++ [Effect.stateChange "ended"] := by
    simp [endCall, updateCallState, hpc', hls, hcb]
  have hws : (match m.signalingSocket with
      | some _ => [Effect.wsClose]
      | none => ([] : List Effect)).count (Effect.stateChange "ended") = 0 ∧
      (match m.signalingSocket with
      | some _ => [Effect.wsClose]
      | none => ([] : List Effect)).count Effect.pcClose = 0 ∧
      ∀ i, (match m.signalingSocket with
      | some _ => [Effect.wsClose]
      | none => ([] : List Effect)).count (Effect.trackStop i) = 0 := by
    cases m.signalingSocket <;> simp
  refine ⟨?_, ?_, ?_, ?_⟩
  · rw [List.count_append, hfst, hsnd]
    simp only [List.count_append]
    rw [count_sendFx _ _ _ _ (fun msg => by simp),
        count_stateChange_trackFx, hws.1]
    simp
  · rw [List.count_append, hfst, hsnd]
    simp only [List.count_append]
    rw [count_sendFx _ _ _ _ (fun msg => by simp),
        count_pcClose_trackFx, hws.2.1]
    simp
  · intro i hi
    rw [List.count_append, hfst, hsnd]
    simp only [List.count_append]
    rw [count_sendFx _ _ _ _ (fun msg => by simp),
        count_trackStop_range ts.length i hi, hws.2.2 i]
    simp
  · rfl

theorem hangup_twice_single_teardown_witness :
    (((endCall senderMgr).2 ++ (endCall (endCall senderMgr).1).2).count
        (Effect.stateChange "ended") = 2) ∧
    (((endCall senderMgr).2 ++ (endCall (endCall senderMgr).1).2).count
        Effect.pcClose = 1) ∧
    (((endCall senderMgr).2 ++ (endCall (endCall senderMgr).1).2).count
        (Effect.trackStop 0) = 1) := by
  have h := hangup_twice_single_teardown senderMgr [tAudio, tVideo] rfl rfl rfl
  exact ⟨h.1, h.2.1, h.2.2.1 0 (by decide)⟩

/-- C1 counterexample: on a live session, invoking `endCall` twice
delivers the `ended` state-change notification twice, not exactly once
as the claim demands (the teardown side effects do happen only once). -/
theorem hangup_twice_two_ended_notifications :
    ((endCall senderMgr).2 ++ (endCall (endCall senderMgr).1).2).count
        (Effect.stateChange "ended") = 2 ∧
    ¬ (((endCall senderMgr).2 ++ (endCall (endCall senderMgr).1).2).count
        (Effect.stateChange "ended") = 1) := by
  decide

/-- C4 (amended): the manager performs no signaling-state validation of
its own.  An answer arriving before any offer was sent is handed
straight to the underlying connection, whose `InvalidStateError`
rejection `handleAnswer` catches and logs, completing normally and
leaving the manager unchanged; and `createAnswer` invoked before a
remote offer has been applied rethrows the platform's
`InvalidStateError` (not a manager-level `InvalidSignalingState`)
without mutating the manager. -/
theorem out_of_order_descriptor_caught (m : Manager) (pc : RTCPeerConnection)
    (s : String)
    (hpc : m.peerConnection = some pc)
    (hsig : pc.signalingState = SignalingState.stable)
    (hcl : pc.closed = false) :
    handleAnswer m (some (SigPayload.desc { type := "answer", sdp := s }))
      = (m, [Effect.log "InvalidStateError"]) ∧
    createAnswer m = (m, [Effect.log "InvalidStateError"],
      some "InvalidStateError") := by
  constructor
  · simp [handleAnswer, rtcSessionDescriptionOf, setRemoteDescription,
      hpc, hsig, hcl]
  · simp [createAnswer, createAnswerPc, hpc, hsig, hcl]

theorem out_of_order_descriptor_caught_witness :
    handleAnswer senderMgr
        (some (SigPayload.desc { type := "answer", sdp := "sdp-x" }))
      = (senderMgr, [Effect.log "InvalidStateError"]) ∧
    createAnswer senderMgr = (senderMgr, [Effect.log "InvalidStateError"],
      some "InvalidStateError") :=
  out_of_order_descriptor_caught senderMgr (newPeerConnection [tAudio, tVideo])
    "sdp-x" rfl rfl rfl

/-- C4 counterexample: on a session still in the stable signaling state,
the out-of-order paths do not fail with `InvalidSignalingState` as the
claim states: `createAnswer` rethrows the platform's
`InvalidStateError` instead, and `handleAnswer` on a premature answer
does not fail at all — it completes normally with only a log entry. -/
theorem out_of_order_answer_not_invalid_signaling :
    (createAnswer senderMgr).2.2 ≠ some "InvalidSignalingState" ∧
    handleAnswer senderMgr
        (some (SigPayload.desc { type := "answer", sdp := "sdp-answer" }))
      = (senderMgr, [Effect.log "InvalidStateError"]) := by
  decide

/-- C5 (amended): when media acquisition is denied, `initializeCall`
reports the bare state string `failed` (no reason code accompanies it),
never creates a peer connection — but it rethrows the wrapped error
("Could not access camera/microphone. Please check permissions.") to
its caller instead of swallowing it. -/
theorem media_denied_fails_no_connection (m : Manager) (sid ct : String)
    (ii : Bool) (e : JsError)
    (hpc : m.peerConnection = none) (hcb : m.hasStateCallback = true) :
    ((initializeCall m sid ct ii (Except.error e)).1.peerConnection = none) ∧
    deliveredStates (initializeCall m sid ct ii (Except.error e)).2.1
      = ["failed"] ∧
    (initializeCall m sid ct ii (Except.error e)).2.2 = some mediaErrMsg := by
  simp [initializeCall, updateCallState, deliveredStates, hpc, hcb]

theorem media_denied_fails_no_connection_witness :
    ((initializeCall freshMgr "sess-1" "video" true
        (Except.error "PermissionDenied")).1.peerConnection = none) ∧
    deliveredStates (initializeCall freshMgr "sess-1" "video" true
        (Except.error "PermissionDenied")).2.1 = ["failed"] ∧
    (initializeCall freshMgr "sess-1" "video" true
        (Except.error "PermissionDenied")).2.2 = some mediaErrMsg :=
  media_denied_fails_no_connection freshMgr "sess-1" "video" true
    "PermissionDenied" rfl rfl

/-- C5 counterexample: after a media-permission denial, `initializeCall`
does not keep the failure inside the manager: it rethrows the error to
the UI caller, contradicting the claim that the failure is never thrown
uncaught into UI code. -/
theorem media_denied_rethrown :
    (initializeCall freshMgr "sess-1" "video" true
        (Except.error "PermissionDenied")).2.2 ≠ none := by
  decide

/-- C6: on a session with an open signaling socket, a live peer
connection and a local stream, a single `endCall` performs, in order:
the hangup send, the peer-connection close, one `stop()` per local
track, the socket close, and the `ended` notification; the resulting
state holds no peer connection, no stream and no socket. -/
theorem endCall_teardown_order (m : Manager) (pc : RTCPeerConnection)
    (ts : List Track)
    (hpc : m.peerConnection = some pc)
    (hls : m.localStream = some ts)
    (hws : m.signalingSocket = some { readyState := WsReady.opened })
    (hcb : m.hasStateCallback = true) :
    endCall m =
      ({ m with peerConnection := none, localStream := none,
                signalingSocket := none },
        [Effect.wsSend (buildMessage "hangup" SigPayload.emptyObj),
         Effect.pcClose]
          ++ (List.range ts.length).map Effect.trackStop
          ++ [Effect.wsClose, Effect.stateChange "ended"]) := by
  simp [endCall, sendSignalingMessage, updateCallState, hpc, hls, hws, hcb]

theorem endCall_teardown_order_witness :
    endCall senderMgr =
      ({ senderMgr with peerConnection := none, localStream := none,
                        signalingSocket := none },
        [Effect.wsSend (buildMessage "hangup" SigPayload.emptyObj),
         Effect.pcClose, Effect.trackStop 0, Effect.trackStop 1,
         Effect.wsClose, Effect.stateChange "ended"]) := by
  have h := endCall_teardown_order senderMgr (newPeerConnection [tAudio, tVideo])
    [tAudio, tVideo] rfl rfl rfl rfl
  exact h

/-- C9: whenever the signaling socket is absent or not OPEN,
`sendSignalingMessage` silently discards the message — no send effect,
no buffering, no error — and consequently an `endCall` performed in
that situation transmits no hangup (or any other) message to the
peer. -/
theorem unopen_socket_drops_messages (m : Manager) (t : String) (d : SigPayload)
    (h : ∀ sock, m.signalingSocket = some sock →
        sock.readyState ≠ WsReady.opened) :
    sendSignalingMessage m t d = [] ∧
    (∀ e ∈ (endCall m).2, ∀ msg, e ≠ Effect.wsSend msg) := by
  have hsend : ∀ (t' : String) (d' : SigPayload),
      sendSignalingMessage m t' d' = [] := by
    intro t' d'
    unfold sendSignalingMessage
    cases hss : m.signalingSocket with
    | none => rfl
    | some sock => simp [h sock hss]
  refine ⟨hsend t d, ?_⟩
  intro e he msg
  unfold endCall at he
  rw [hsend] at he
  simp only [List.nil_append, List.mem_append] at he
  rcases he with ((he | he) | he) | he
  · split at he <;> simp_all
  · split at he
    · simp only [List.mem_map] at he
      obtain ⟨a, _, rfl⟩ := he
      simp
    · simp_all
  · split at he <;> simp_all
  · unfold updateCallState at he
    split at he <;> simp_all

theorem unopen_socket_drops_messages_witness :
    sendSignalingMessage freshMgr "hangup" SigPayload.emptyObj = [] ∧
    (∀ e ∈ (endCall freshMgr).2, ∀ msg, e ≠ Effect.wsSend msg) :=
  unopen_socket_drops_messages freshMgr "hangup" SigPayload.emptyObj
    (fun _ hs => absurd hs (by simp [freshMgr]))

/-- C10: once teardown has nulled the stream, connection and socket,
every public control operation stays safe: the toggles return false and
change nothing, and a further `endCall` skips every teardown step —
its only effect is the (repeated) `ended` notification. -/
theorem controls_safe_after_teardown (m : Manager)
    (h1 : m.peerConnection = none) (h2 : m.localStream = none)
    (h3 : m.signalingSocket = none) :
    toggleAudio m = (m, false) ∧ toggleVideo m = (m, false) ∧
    endCall m = (m, updateCallState m "ended") := by
  have hm : { m with peerConnection := none, localStream := none,
                     signalingSocket := none } = m := by
    rw [← h1, ← h2, ← h3]
  refine ⟨by simp [toggleAudio, h2], by simp [toggleVideo, h2], ?_⟩
  simp [endCall, sendSignalingMessage, h1, h2, h3, hm]

theorem controls_safe_after_teardown_witness :
    toggleAudio freshMgr = (freshMgr, false) ∧
    toggleVideo freshMgr = (freshMgr, false) ∧
    endCall freshMgr = (freshMgr, updateCallState freshMgr "ended") :=
  controls_safe_after_teardown freshMgr rfl rfl rfl

theorem flipFirst_involutive (k : MediaKind) (ts : List Track) :
    flipFirst k (flipFirst k ts) = ts := by
  induction ts with
  | nil => rfl
  | cons t tl ih =>
      obtain ⟨tk, te, tst⟩ := t
      by_cases h : tk = k
      · subst h
        simp [flipFirst]
      · simp [flipFirst, h, ih]

theorem firstTrack_flipFirst (k : MediaKind) (ts : List Track) (t : Track)
    (h : firstTrack k ts = some t) :
    firstTrack k (flipFirst k ts) = some { t with enabled := !t.enabled } := by
  induction ts with
  | nil => simp [firstTrack] at h
  | cons hd tl ih =>
      by_cases hk : hd.kind = k
      · simp [firstTrack, List.find?_cons, hk] at h
        subst h
        simp [flipFirst, firstTrack, List.find?_cons, hk]
      · have hflip : flipFirst k (hd :: tl) = hd :: flipFirst k tl := by
          simp [flipFirst, hk]
        have h' : firstTrack k tl = some t := by
          simpa [firstTrack, List.find?_cons, hk] using h
        rw [hflip]
        have hskip : firstTrack k (hd :: flipFirst k tl)
            = firstTrack k (flipFirst k tl) := by
          simp [firstTrack, List.find?_cons, hk]
        rw [hskip]
        exact ih h'

theorem flipFirst_preserves (k : MediaKind) (ts : List Track) :
    (flipFirst k ts).map (fun x => (x.kind, x.stopped))
      = ts.map (fun x => (x.kind, x.stopped)) := by
  induction ts with
  | nil => rfl
  | cons t tl ih =>
      by_cases h : t.kind = k
      · simp [flipFirst, h]
      · simp [flipFirst, h, ih]

theorem toggleAudio_toggleAudio (m : Manager) :
    (toggleAudio (toggleAudio m).1).1 = m := by
  rcases hls : m.localStream with _ | ts
  · simp [toggleAudio, hls]
  · rcases hft : firstTrack MediaKind.audio ts with _ | t
    · simp [toggleAudio, hls, hft]
    · have h2 := firstTrack_flipFirst MediaKind.audio ts t hft
      simp only [toggleAudio, hls, hft, h2, flipFirst_involutive]
      rw [← hls]

theorem toggleVideo_toggleVideo (m : Manager) :
    (toggleVideo (toggleVideo m).1).1 = m := by
  rcases hls : m.localStream with _ | ts
  · simp [toggleVideo, hls]
  · rcases hft : firstTrack MediaKind.video ts with _ | t
    · simp [toggleVideo, hls, hft]
    · have h2 := firstTrack_flipFirst MediaKind.video ts t hft
      simp only [toggleVideo, hls, hft, h2, flipFirst_involutive]
      rw [← hls]

/-- C7: the media toggles flip only the `enabled` flag of the first local
track of the matching kind — the track set (kinds and stopped flags)
and the peer connection are untouched, so no renegotiation can occur —
and return the resulting enabled state; two consecutive calls restore
the manager exactly.  With no local stream or no matching track they
return false and change nothing. -/
theorem toggle_media_spec (m : Manager) :
    ((toggleAudio (toggleAudio m).1).1 = m ∧
     (toggleVideo (toggleVideo m).1).1 = m) ∧
    ((toggleAudio m).1.peerConnection = m.peerConnection ∧
     (toggleVideo m).1.peerConnection = m.peerConnection) ∧
    (m.localStream = none →
      toggleAudio m = (m, false) ∧ toggleVideo m = (m, false)) ∧
    (∀ ts, m.localStream = some ts → firstTrack MediaKind.audio ts = none →
      toggleAudio m = (m, false)) ∧
    (∀ ts, m.localStream = some ts → firstTrack MediaKind.video ts = none →
      toggleVideo m = (m, false)) ∧
    (∀ ts t, m.localStream = some ts → firstTrack MediaKind.audio ts = some t →
      (toggleAudio m).2 = !t.enabled ∧
      (toggleAudio m).1.localStream = some (flipFirst MediaKind.audio ts) ∧
      (flipFirst MediaKind.audio ts).map (fun x => (x.kind, x.stopped))
        = ts.map (fun x => (x.kind, x.stopped))) ∧
    (∀ ts t, m.localStream = some ts → firstTrack MediaKind.video ts = some t →
      (toggleVideo m).2 = !t.enabled ∧
      (toggleVideo m).1.localStream = some (flipFirst MediaKind.video ts) ∧
      (flipFirst MediaKind.video ts).map (fun x => (x.kind, x.stopped))
        = ts.map (fun x => (x.kind, x.stopped))) := by
  refine ⟨⟨toggleAudio_toggleAudio m, toggleVideo_toggleVideo m⟩, ⟨?_, ?_⟩,
    ?_, ?_, ?_, ?_, ?_⟩
  · unfold toggleAudio
    split <;> try rfl
    split <;> rfl
  · unfold toggleVideo
    split <;> try rfl
    split <;> rfl
  · intro h
    constructor <;> simp [toggleAudio, toggleVideo, h]
  · intro ts hls hft
    simp [toggleAudio, hls, hft]
  · intro ts hls hft
    simp [toggleVideo, hls, hft]
  · intro ts t hls hft
    refine ⟨?_, ?_, flipFirst_preserves _ _⟩ <;> simp [toggleAudio, hls, hft]
  · intro ts t hls hft
    refine ⟨?_, ?_, flipFirst_preserves _ _⟩ <;> simp [toggleVideo, hls, hft]

theorem toggle_media_spec_witness :
    (toggleAudio (toggleAudio senderMgr).1).1 = senderMgr ∧
    (toggleAudio senderMgr).2 = false := by
  have h := toggle_media_spec senderMgr
  exact ⟨h.1.1,
    (h.2.2.2.2.2.1 [tAudio, tVideo] tAudio rfl (by decide)).1⟩

/-- C8: `handleIceCandidate` never aborts the session: a falsy (absent,
null, or empty-string) candidate is skipped with no effect at all, and
in every case the only possible effects are log entries — no state
notification, no teardown — while the manager is unchanged except
possibly for the candidate list of its connection. -/
theorem remote_candidate_non_aborting (m : Manager) (p : Option SigPayload) :
    (jsTruthy p = false → handleIceCandidate m p = (m, [])) ∧
    (∀ e ∈ (handleIceCandidate m p).2, ∃ err, e = Effect.log err) ∧
    (handleIceCandidate m p).1.localStream = m.localStream ∧
    (handleIceCandidate m p).1.signalingSocket = m.signalingSocket ∧
    (handleIceCandidate m p).1.hasStateCallback = m.hasStateCallback ∧
    (handleIceCandidate m p).1.peerConnection.map
        (fun pc => { pc with remoteCandidates := [] })
      = m.peerConnection.map (fun pc => { pc with remoteCandidates := [] }) := by
  by_cases ht : jsTruthy p = true
  · cases p with
    | none => simp [jsTruthy] at ht
    | some payload =>
        rcases hio : rtcIceCandidateOf payload with e | c
        · simp only [handleIceCandidate, ht, ite_true, hio]
          refine ⟨fun hf => absurd hf (by simp), ?_, trivial, trivial, trivial,
            trivial⟩
          intro x hx
          rw [List.mem_singleton] at hx
          exact ⟨e, hx⟩
        · rcases hpc : m.peerConnection with _ | pc
          · simp only [handleIceCandidate, ht, ite_true, hio, hpc]
            refine ⟨fun hf => absurd hf (by simp), ?_, trivial, trivial,
              trivial, trivial⟩
            intro x hx
            rw [List.mem_singleton] at hx
            exact ⟨"TypeError", hx⟩
          · rcases hadd : addIceCandidate pc c with e | pc'
            · simp only [handleIceCandidate, ht, ite_true, hio, hpc, hadd]
              refine ⟨fun hf => absurd hf (by simp), ?_, trivial, trivial,
                trivial, trivial⟩
              intro x hx
              rw [List.mem_singleton] at hx
              exact ⟨e, hx⟩
            · simp only [handleIceCandidate, ht, ite_true, hio, hpc, hadd]
              refine ⟨fun hf => absurd hf (by simp), by simp, trivial, trivial,
                trivial, ?_⟩
              unfold addIceCandidate at hadd
              by_cases hcl : pc.closed = true
              · simp [hcl] at hadd
              · simp only [hcl, Bool.false_eq_true, ite_false] at hadd
                rcases hrd : pc.remoteDescription with _ | d
                · rw [hrd] at hadd
                  simp at hadd
                · rw [hrd] at hadd
                  simp only [Except.ok.injEq] at hadd
                  rw [← hadd]
                  have hclf : pc.closed = false := by simpa using hcl
                  simp [hrd, hclf]
  · simp only [Bool.not_eq_true] at ht
    have hic : handleIceCandidate m p = (m, []) := by
      simp [handleIceCandidate, ht]
    rw [hic]
    exact ⟨fun _ => rfl, by simp, rfl, rfl, rfl, rfl⟩

theorem remote_candidate_non_aborting_witness :
    jsTruthy (some SigPayload.nullv) = false ∧
    handleIceCandidate senderMgr (some SigPayload.nullv) = (senderMgr, []) :=
  ⟨rfl, (remote_candidate_non_aborting senderMgr (some SigPayload.nullv)).1 rfl⟩
